import Mathlib

/-!
Verification of the dynamic statistical analyzer
(src/src/lib/dynamicStatisticalAnalyzer.py).

Samples are modelled as lists of rationals (Python floats carry rational
values); arithmetic that the code performs on floats is carried out exactly,
in ℚ where it stays rational and in ℝ once a square root is taken.  The
scipy distribution primitives (t / normal / chi-squared CDFs and quantiles)
are opaque real-valued functions, so every development below is
parameterised by a bundle of such functions (DistFuns); nothing proved here
depends on their values.  Functions that can raise in Python (division by a
zero integer count, scipy rejecting a contingency table with a zero expected
frequency) return Option, with none modelling the raised exception; numpy
float operations never raise and are modelled as total.
-/

/-- DataType = Literal of continuous, binary, categorical. -/
inductive DataType
  | continuous
  | binary
  | categorical
deriving DecidableEq

/-- TestType = Literal of t-test, z-test, chi-squared. -/
inductive TestType
  | tTest
  | zTest
  | chiSquared
deriving DecidableEq

/-- The scipy.stats primitives used by the analyzer, kept abstract:
tcdf x df = stats.t.cdf(x, df), tppf q df = stats.t.ppf(q, df),
normcdf x = stats.norm.cdf(x), normppf q = stats.norm.ppf(q),
chi2sf x df = the chi-squared survival function used inside
stats.chi2_contingency to turn the statistic into a p-value. -/
structure DistFuns where
  tcdf : ℝ → ℝ → ℝ
  tppf : ℝ → ℝ → ℝ
  normcdf : ℝ → ℝ
  normppf : ℝ → ℝ
  chi2sf : ℝ → ℝ → ℝ

/-- dataclass StatisticalInputs. -/
structure StatisticalInputs where
  group_a : List ℚ
  group_b : List ℚ
  significance_level : ℚ
  power : ℚ
  confidence_level : ℚ

/-- dataclass StatisticalResult; the two prose dictionaries
(interpretation, test_details) carry no numeric content and are omitted;
the confidence_interval dictionary is flattened into its two entries. -/
structure StatisticalResult where
  data_type : DataType
  test_type : TestType
  test_statistic : ℝ
  p_value : ℝ
  ci_lower : ℝ
  ci_upper : ℝ
  effect_size : ℝ
  is_significant : Prop

/-- mean(data) = np.mean(data).  (np.mean of an empty list is NaN; in ℚ the
0/0 here is 0 — no claim evaluates the mean of an empty sample.) -/
def mean (l : List ℚ) : ℚ := l.sum / l.length

/-- variance(data) = np.var(data, ddof=1): unbiased sample variance with
denominator n - 1.  (For n = 1 numpy yields NaN from 0/0; in ℚ it is 0 —
every claim about the variance carries an n ≥ 2 guard.) -/
def variance (l : List ℚ) : ℚ :=
  (l.map (fun x => (x - mean l) ^ 2)).sum / ((l.length : ℚ) - 1)

/-- detect_data_type(data): dedupe, then binary when every unique value is
0 or 1, else categorical when there are at most 10 unique values all
integral (float(val).is_integer(), i.e. denominator 1), else continuous. -/
def detect_data_type (data : List ℚ) : DataType :=
  if ∀ v ∈ data.dedup, v = 0 ∨ v = 1 then .binary
  else if data.dedup.length ≤ 10 ∧ ∀ v ∈ data.dedup, v.den = 1 then .categorical
  else .continuous

/-- The squared Welch standard error var_a/n_a + var_b/n_b (the quantity
under the square root of pooled_se in welch_t_test). -/
def welchSESq (A B : List ℚ) : ℚ :=
  variance A / (A.length : ℚ) + variance B / (B.length : ℚ)

/-- pooled_se = np.sqrt(var_a/n_a + var_b/n_b) in welch_t_test. -/
noncomputable def welchSE (A B : List ℚ) : ℝ := Real.sqrt (welchSESq A B)

/-- Welch-Satterthwaite degrees of freedom, as computed in welch_t_test. -/
def welchDF (A B : List ℚ) : ℚ :=
  welchSESq A B ^ 2 /
    ((variance A / (A.length : ℚ)) ^ 2 / ((A.length : ℚ) - 1) +
      (variance B / (B.length : ℚ)) ^ 2 / ((B.length : ℚ) - 1))

/-- pooled_sd = np.sqrt(((n_a-1)*var_a + (n_b-1)*var_b)/(n_a+n_b-2)) in
welch_t_test (the Cohen d denominator). -/
noncomputable def pooledSD (A B : List ℚ) : ℝ :=
  Real.sqrt (((((A.length : ℚ) - 1) * variance A + ((B.length : ℚ) - 1) * variance B) /
    ((A.length : ℚ) + (B.length : ℚ) - 2) : ℚ) : ℝ)

/-- welch_t_test(group_a, group_b, alpha, confidence_level).  All numpy
float arithmetic is total (NaN-propagating, never raising), so this is a
total function. -/
noncomputable def welch_t_test (D : DistFuns) (group_a group_b : List ℚ)
    (alpha confidence_level : ℚ) : StatisticalResult :=
  let mean_a := mean group_a
  let mean_b := mean group_b
  let t : ℝ := ((mean_a - mean_b : ℚ) : ℝ) / welchSE group_a group_b
  let df := welchDF group_a group_b
  let p_value : ℝ := 2 * (1 - D.tcdf |t| (df : ℝ))
  let cohens_d : ℝ := ((mean_a - mean_b : ℚ) : ℝ) / pooledSD group_a group_b
  let t_critical : ℝ := D.tppf ((1 - (1 - confidence_level) / 2 : ℚ) : ℝ) (df : ℝ)
  let margin_of_error : ℝ := t_critical * welchSE group_a group_b
  let diff : ℝ := ((mean_a - mean_b : ℚ) : ℝ)
  { data_type := .continuous
    test_type := .tTest
    test_statistic := t
    p_value := p_value
    ci_lower := diff - margin_of_error
    ci_upper := diff + margin_of_error
    effect_size := cohens_d
    is_significant := p_value < (alpha : ℝ) }

/-- two_proportion_z_test(group_a, group_b, alpha, confidence_level).
p_a = x_a / n_a is plain Python division by the integer length, so an empty
group raises ZeroDivisionError: modelled by none. -/
noncomputable def two_proportion_z_test (D : DistFuns) (group_a group_b : List ℚ)
    (alpha confidence_level : ℚ) : Option StatisticalResult :=
  if group_a.length = 0 ∨ group_b.length = 0 then none
  else
    let n_a : ℚ := group_a.length
    let n_b : ℚ := group_b.length
    let x_a := group_a.sum
    let x_b := group_b.sum
    let p_a := x_a / n_a
    let p_b := x_b / n_b
    let p_pool := (x_a + x_b) / (n_a + n_b)
    let standard_error : ℝ := Real.sqrt ((p_pool * (1 - p_pool) * (1 / n_a + 1 / n_b) : ℚ) : ℝ)
    let z : ℝ := ((p_a - p_b : ℚ) : ℝ) / standard_error
    let p_value : ℝ := 2 * (1 - D.normcdf |z|)
    let z_critical : ℝ := D.normppf ((1 - (1 - confidence_level) / 2 : ℚ) : ℝ)
    let se_diff : ℝ := Real.sqrt ((p_a * (1 - p_a) / n_a + p_b * (1 - p_b) / n_b : ℚ) : ℝ)
    let diff : ℝ := ((p_a - p_b : ℚ) : ℝ)
    let margin_of_error : ℝ := z_critical * se_diff
    some
      { data_type := .binary
        test_type := .zTest
        test_statistic := z
        p_value := p_value
        ci_lower := diff - margin_of_error
        ci_upper := diff + margin_of_error
        effect_size := diff
        is_significant := p_value < (alpha : ℝ) }

/-- unique_values = sorted(list(set(group_a + group_b))) in chi_squared_test. -/
def contingencyValues (A B : List ℚ) : List ℚ :=
  ((A ++ B).dedup).mergeSort (fun a b => a ≤ b)

/-- The contingency table of chi_squared_test: one row per sorted distinct
value, entries (count in group_a, count in group_b). -/
def contingencyTable (A B : List ℚ) : List (ℕ × ℕ) :=
  (contingencyValues A B).map (fun v => (A.count v, B.count v))

/-- The uncorrected Pearson chi-squared statistic of an r-by-2 table, with
expected frequencies rowTotal * colTotal / grandTotal computed from the
margins — what stats.chi2_contingency computes when no continuity
correction applies, and also the statistic the spec describes. -/
def pearsonChi2OfTable (T : List (ℕ × ℕ)) : ℚ :=
  let cA : ℚ := ((T.map Prod.fst).sum : ℕ)
  let cB : ℚ := ((T.map Prod.snd).sum : ℕ)
  let tot := cA + cB
  (T.map (fun row =>
    let oA : ℚ := row.1
    let oB : ℚ := row.2
    let rt := oA + oB
    let eA := rt * cA / tot
    let eB := rt * cB / tot
    (oA - eA) ^ 2 / eA + (oB - eB) ^ 2 / eB)).sum

/-- The Yates continuity-corrected chi-squared statistic of an r-by-2
table: each observed count is moved toward its expected frequency by
min(1/2, |obs - exp|) before the Pearson sum — what
stats.chi2_contingency(·, correction=True) computes when dof = 1. -/
def yatesChi2OfTable (T : List (ℕ × ℕ)) : ℚ :=
  let cA : ℚ := ((T.map Prod.fst).sum : ℕ)
  let cB : ℚ := ((T.map Prod.snd).sum : ℕ)
  let tot := cA + cB
  (T.map (fun row =>
    let oA : ℚ := row.1
    let oB : ℚ := row.2
    let rt := oA + oB
    let eA := rt * cA / tot
    let eB := rt * cB / tot
    max (|oA - eA| - 1 / 2) 0 ^ 2 / eA + max (|oB - eB| - 1 / 2) 0 ^ 2 / eB)).sum

/-- stats.chi2_contingency on an r-by-2 table of counts, with its default
correction=True: dof = r - 1; when dof = 0 the result is (0, 1); when
dof = 1 the Yates-corrected statistic is used; otherwise the plain Pearson
statistic; the p-value is the chi-squared survival function at the
statistic. -/
noncomputable def chi2_contingency (D : DistFuns) (T : List (ℕ × ℕ)) : ℚ × ℝ :=
  let dof := T.length - 1
  if dof = 0 then (0, 1)
  else
    let chi2 := if dof = 1 then yatesChi2OfTable T else pearsonChi2OfTable T
    (chi2, D.chi2sf (chi2 : ℝ) (dof : ℝ))

/-- chi_squared_test(group_a, group_b, alpha, confidence_level).  With an
empty group the expected-frequency table has a zero entry and
stats.chi2_contingency raises ValueError: modelled by none.  (With both
groups non-empty every row and column margin is positive, so no expected
entry is zero.) -/
noncomputable def chi_squared_test (D : DistFuns) (group_a group_b : List ℚ)
    (alpha confidence_level : ℚ) : Option StatisticalResult :=
  if group_a = [] ∨ group_b = [] then none
  else
    let res := chi2_contingency D (contingencyTable group_a group_b)
    let chi2 := res.1
    let p_value := res.2
    let total_n : ℚ := (group_a.length : ℚ) + (group_b.length : ℚ)
    let effect_size : ℝ := Real.sqrt ((chi2 / total_n : ℚ) : ℝ)
    some
      { data_type := .categorical
        test_type := .chiSquared
        test_statistic := (chi2 : ℝ)
        p_value := p_value
        ci_lower := 0
        ci_upper := effect_size * 2
        effect_size := effect_size
        is_significant := p_value < (alpha : ℝ) }

/-- The combined data type of analyze_data: binary if either group is
binary, else categorical if either group is categorical, else continuous. -/
def resolved_data_type (A B : List ℚ) : DataType :=
  if detect_data_type A = .binary ∨ detect_data_type B = .binary then .binary
  else if detect_data_type A = .categorical ∨ detect_data_type B = .categorical then
    .categorical
  else .continuous

/-- The 1:1 correspondence between combined data type and the test that
analyze_data runs for it. -/
def test_for : DataType → TestType
  | .binary => .zTest
  | .categorical => .chiSquared
  | .continuous => .tTest

/-- analyze_data(inputs): classify both groups, resolve the combined data
type, dispatch to the matching test. -/
noncomputable def analyze_data (D : DistFuns) (inputs : StatisticalInputs) :
    Option StatisticalResult :=
  match resolved_data_type inputs.group_a inputs.group_b with
  | .binary =>
      two_proportion_z_test D inputs.group_a inputs.group_b
        inputs.significance_level inputs.confidence_level
  | .categorical =>
      chi_squared_test D inputs.group_a inputs.group_b
        inputs.significance_level inputs.confidence_level
  | .continuous =>
      some (welch_t_test D inputs.group_a inputs.group_b
        inputs.significance_level inputs.confidence_level)

/-- A concrete bundle of distribution functions, used to instantiate the
parameterised statements at concrete inputs. -/
noncomputable def D0 : DistFuns :=
  ⟨fun _ _ => 0, fun _ _ => 0, fun _ => 0, fun _ => 0, fun _ _ => 0⟩

/-- Membership in the deduplicated list is membership in the list, for any
property over the values. -/
theorem forall_dedup_iff (l : List ℚ) (P : ℚ → Prop) :
    (∀ v ∈ l.dedup, P v) ↔ ∀ v ∈ l, P v := by
  simp [List.mem_dedup]

/-- C7: detect_data_type returns binary exactly when every distinct value is
0 or 1; categorical exactly when it is not binary, has at most 10 distinct
values and all values are integral; continuous otherwise; and a non-empty
sample of all-identical non-0/1 integers classifies as categorical. -/
theorem C7_detect_data_type_spec (l : List ℚ) (h : l ≠ []) :
    (detect_data_type l = .binary ↔ ∀ v ∈ l, v = 0 ∨ v = 1) ∧
    (detect_data_type l = .categorical ↔
      ¬ (∀ v ∈ l, v = 0 ∨ v = 1) ∧ l.dedup.length ≤ 10 ∧ ∀ v ∈ l, v.den = 1) ∧
    (detect_data_type l = .continuous ↔
      ¬ (∀ v ∈ l, v = 0 ∨ v = 1) ∧ ¬ (l.dedup.length ≤ 10 ∧ ∀ v ∈ l, v.den = 1)) ∧
    (∀ q : ℚ, q.den = 1 → q ≠ 0 → q ≠ 1 → (∀ v ∈ l, v = q) →
      detect_data_type l = .categorical) := by
  have h1 := forall_dedup_iff l (fun v => v = 0 ∨ v = 1)
  have h2 := forall_dedup_iff l (fun v => v.den = 1)
  have main : (detect_data_type l = .binary ↔ ∀ v ∈ l, v = 0 ∨ v = 1) ∧
      (detect_data_type l = .categorical ↔
        ¬ (∀ v ∈ l, v = 0 ∨ v = 1) ∧ l.dedup.length ≤ 10 ∧ ∀ v ∈ l, v.den = 1) ∧
      (detect_data_type l = .continuous ↔
        ¬ (∀ v ∈ l, v = 0 ∨ v = 1) ∧ ¬ (l.dedup.length ≤ 10 ∧ ∀ v ∈ l, v.den = 1)) := by
    unfold detect_data_type
    split_ifs with hb hc
    · have hb' := h1.mp hb
      exact ⟨iff_of_true rfl hb', iff_of_false (by decide) (fun hh => hh.1 hb'),
        iff_of_false (by decide) (fun hh => hh.1 hb')⟩
    · have hb' : ¬ ∀ v ∈ l, v = 0 ∨ v = 1 := fun hh => hb (h1.mpr hh)
      have hc' : l.dedup.length ≤ 10 ∧ ∀ v ∈ l, v.den = 1 := ⟨hc.1, h2.mp hc.2⟩
      exact ⟨iff_of_false (by decide) (fun hh => hb' hh), iff_of_true rfl ⟨hb', hc'⟩,
        iff_of_false (by decide) (fun hh => hh.2 hc')⟩
    · have hb' : ¬ ∀ v ∈ l, v = 0 ∨ v = 1 := fun hh => hb (h1.mpr hh)
      have hc' : ¬ (l.dedup.length ≤ 10 ∧ ∀ v ∈ l, v.den = 1) :=
        fun hh => hc ⟨hh.1, h2.mpr hh.2⟩
      exact ⟨iff_of_false (by decide) (fun hh => hb' hh),
        iff_of_false (by decide) (fun hh => hc' hh.2), iff_of_true rfl ⟨hb', hc'⟩⟩
  refine ⟨main.1, main.2.1, main.2.2, ?_⟩
  intro q hden h0 hone hall
  obtain ⟨x, hx⟩ := List.exists_mem_of_ne_nil l h
  have hnb : ¬ ∀ v ∈ l, v = 0 ∨ v = 1 := by
    intro hf
    rcases hf x hx with h' | h'
    · exact h0 ((hall x hx).symm.trans h')
    · exact hone ((hall x hx).symm.trans h')
  have hsub : l.dedup ⊆ [q] := by
    intro v hv
    rw [List.mem_dedup] at hv
    simp [hall v hv]
  have hlen : l.dedup.length ≤ 10 := by
    have hle := (List.subperm_of_subset (List.nodup_dedup l) hsub).length_le
    simp only [List.length_singleton] at hle
    omega
  have hint : ∀ v ∈ l, v.den = 1 := fun v hv => by rw [hall v hv]; exact hden
  exact main.2.1.mpr ⟨hnb, hlen, hint⟩

/-- C7 witness: the all-5s sample. -/
theorem C7_detect_data_type_spec_witness :
    ([5, 5] : List ℚ) ≠ [] ∧
    ((detect_data_type [5, 5] = .binary ↔ ∀ v ∈ ([5, 5] : List ℚ), v = 0 ∨ v = 1) ∧
    (detect_data_type [5, 5] = .categorical ↔
      ¬ (∀ v ∈ ([5, 5] : List ℚ), v = 0 ∨ v = 1) ∧
        ([5, 5] : List ℚ).dedup.length ≤ 10 ∧ ∀ v ∈ ([5, 5] : List ℚ), v.den = 1) ∧
    (detect_data_type [5, 5] = .continuous ↔
      ¬ (∀ v ∈ ([5, 5] : List ℚ), v = 0 ∨ v = 1) ∧
        ¬ (([5, 5] : List ℚ).dedup.length ≤ 10 ∧ ∀ v ∈ ([5, 5] : List ℚ), v.den = 1)) ∧
    (∀ q : ℚ, q.den = 1 → q ≠ 0 → q ≠ 1 → (∀ v ∈ ([5, 5] : List ℚ), v = q) →
      detect_data_type [5, 5] = .categorical)) :=
  ⟨by simp, C7_detect_data_type_spec [5, 5] (by simp)⟩

/-- C10: detect_data_type of the empty sample is binary (the 0/1 check over
no unique values is vacuously true), so analyze_data with an empty group
resolves the combined type to binary and dispatches to the two-proportion
z-test path, with no separate empty-input error case before dispatch. -/
theorem C10_empty_sample_binary_dispatch (D : DistFuns) (A B : List ℚ) (α pw c : ℚ) :
    detect_data_type ([] : List ℚ) = .binary ∧
    resolved_data_type [] B = .binary ∧
    resolved_data_type A [] = .binary ∧
    analyze_data D ⟨[], B, α, pw, c⟩ = two_proportion_z_test D [] B α c ∧
    analyze_data D ⟨A, [], α, pw, c⟩ = two_proportion_z_test D A [] α c := by
  have h0 : detect_data_type ([] : List ℚ) = .binary := rfl
  have hB : resolved_data_type [] B = .binary := by simp [resolved_data_type, h0]
  have hA : resolved_data_type A [] = .binary := by simp [resolved_data_type, h0]
  exact ⟨h0, hB, hA, by simp [analyze_data, hB], by simp [analyze_data, hA]⟩

/-- C1: for non-empty groups, analyze_data resolves the combined type by the
dominance order binary over categorical over continuous on the two per-group
classifications, dispatches to exactly the matching test, and the returned
record carries the resolved data type and its 1:1 matching test type. -/
theorem C1_analyze_data_dispatch (D : DistFuns) (A B : List ℚ) (α pw c : ℚ)
    (hA : A ≠ []) (hB : B ≠ []) :
    (resolved_data_type A B = .binary ↔
      (detect_data_type A = .binary ∨ detect_data_type B = .binary)) ∧
    (resolved_data_type A B = .categorical ↔
      (¬ (detect_data_type A = .binary ∨ detect_data_type B = .binary) ∧
        (detect_data_type A = .categorical ∨ detect_data_type B = .categorical))) ∧
    (resolved_data_type A B = .continuous ↔
      (¬ (detect_data_type A = .binary ∨ detect_data_type B = .binary) ∧
        ¬ (detect_data_type A = .categorical ∨ detect_data_type B = .categorical))) ∧
    analyze_data D ⟨A, B, α, pw, c⟩ =
      (match resolved_data_type A B with
        | .binary => two_proportion_z_test D A B α c
        | .categorical => chi_squared_test D A B α c
        | .continuous => some (welch_t_test D A B α c)) ∧
    (∃ r, analyze_data D ⟨A, B, α, pw, c⟩ = some r ∧
      r.data_type = resolved_data_type A B ∧
      r.test_type = test_for (resolved_data_type A B)) := by
  have hres : (resolved_data_type A B = .binary ↔
      (detect_data_type A = .binary ∨ detect_data_type B = .binary)) ∧
      (resolved_data_type A B = .categorical ↔
        (¬ (detect_data_type A = .binary ∨ detect_data_type B = .binary) ∧
          (detect_data_type A = .categorical ∨ detect_data_type B = .categorical))) ∧
      (resolved_data_type A B = .continuous ↔
        (¬ (detect_data_type A = .binary ∨ detect_data_type B = .binary) ∧
          ¬ (detect_data_type A = .categorical ∨ detect_data_type B = .categorical))) := by
    unfold resolved_data_type
    split_ifs with hb hc
    · exact ⟨by simpa using hb, by simp [hb], by simp [hb]⟩
    · exact ⟨by simpa using hb, by simpa [hb] using hc, by simp [hb, hc]⟩
    · exact ⟨by simpa using hb, by simpa [hb] using hc, by simp [hb, hc]⟩
  refine ⟨hres.1, hres.2.1, hres.2.2, rfl, ?_⟩
  have hA' : A.length ≠ 0 := fun hl => hA (List.length_eq_zero.mp hl)
  have hB' : B.length ≠ 0 := fun hl => hB (List.length_eq_zero.mp hl)
  rcases hr : resolved_data_type A B with _ | _ | _
  · have hgoal : analyze_data D ⟨A, B, α, pw, c⟩ = some (welch_t_test D A B α c) := by
      simp [analyze_data, hr]
    exact ⟨welch_t_test D A B α c, hgoal, rfl, rfl⟩
  · have hgoal : analyze_data D ⟨A, B, α, pw, c⟩ = two_proportion_z_test D A B α c := by
      simp [analyze_data, hr]
    rw [hgoal, two_proportion_z_test, if_neg (by simp [hA', hB'])]
    exact ⟨_, rfl, rfl, rfl⟩
  · have hgoal : analyze_data D ⟨A, B, α, pw, c⟩ = chi_squared_test D A B α c := by
      simp [analyze_data, hr]
    rw [hgoal, chi_squared_test, if_neg (by simp [hA, hB])]
    exact ⟨_, rfl, rfl, rfl⟩

/-- C1 witness: one binary and one single-value group. -/
theorem C1_analyze_data_dispatch_witness :
    ([0, 1] : List ℚ) ≠ [] ∧ ([1] : List ℚ) ≠ [] ∧
    ((resolved_data_type [0, 1] [1] = .binary ↔
      (detect_data_type [0, 1] = .binary ∨ detect_data_type [1] = .binary)) ∧
    (resolved_data_type [0, 1] [1] = .categorical ↔
      (¬ (detect_data_type [0, 1] = .binary ∨ detect_data_type [1] = .binary) ∧
        (detect_data_type [0, 1] = .categorical ∨ detect_data_type [1] = .categorical))) ∧
    (resolved_data_type [0, 1] [1] = .continuous ↔
      (¬ (detect_data_type [0, 1] = .binary ∨ detect_data_type [1] = .binary) ∧
        ¬ (detect_data_type [0, 1] = .categorical ∨ detect_data_type [1] = .categorical))) ∧
    analyze_data D0 ⟨[0, 1], [1], 1/20, 4/5, 19/20⟩ =
      (match resolved_data_type [0, 1] [1] with
        | .binary => two_proportion_z_test D0 [0, 1] [1] (1/20) (19/20)
        | .categorical => chi_squared_test D0 [0, 1] [1] (1/20) (19/20)
        | .continuous => some (welch_t_test D0 [0, 1] [1] (1/20) (19/20))) ∧
    (∃ r, analyze_data D0 ⟨[0, 1], [1], 1/20, 4/5, 19/20⟩ = some r ∧
      r.data_type = resolved_data_type [0, 1] [1] ∧
      r.test_type = test_for (resolved_data_type [0, 1] [1]))) :=
  ⟨by simp, by simp,
    C1_analyze_data_dispatch D0 [0, 1] [1] (1/20) (4/5) (19/20) (by simp) (by simp)⟩

/-- C2: the Welch t-test computes t = (meanA - meanB)/sqrt(varA/nA + varB/nB)
with sample variances, the Welch-Satterthwaite degrees of freedom, the
two-tailed p-value 2(1 - CDF_t(|t|, df)), Cohen d with the pooled standard
deviation, and the confidence interval centred on meanA - meanB with
half-width t_critical(df, confidenceLevel) times the Welch standard error. -/
theorem C2_welch_t_test_formulas (D : DistFuns) (A B : List ℚ) (α c : ℚ)
    (hA : 2 ≤ A.length) (hB : 2 ≤ B.length) :
    (welch_t_test D A B α c).test_statistic =
      ((mean A - mean B : ℚ) : ℝ) /
        Real.sqrt ((variance A / (A.length : ℚ) + variance B / (B.length : ℚ) : ℚ) : ℝ) ∧
    (welch_t_test D A B α c).p_value =
      2 * (1 - D.tcdf |(welch_t_test D A B α c).test_statistic|
        ((variance A / (A.length : ℚ) + variance B / (B.length : ℚ)) ^ 2 /
          ((variance A / (A.length : ℚ)) ^ 2 / ((A.length : ℚ) - 1) +
            (variance B / (B.length : ℚ)) ^ 2 / ((B.length : ℚ) - 1)) : ℚ)) ∧
    (welch_t_test D A B α c).effect_size =
      ((mean A - mean B : ℚ) : ℝ) /
        Real.sqrt (((((A.length : ℚ) - 1) * variance A + ((B.length : ℚ) - 1) * variance B) /
          ((A.length : ℚ) + (B.length : ℚ) - 2) : ℚ) : ℝ) ∧
    (welch_t_test D A B α c).ci_lower =
      ((mean A - mean B : ℚ) : ℝ) -
        D.tppf ((1 - (1 - c) / 2 : ℚ) : ℝ) ((welchDF A B : ℚ) : ℝ) *
          Real.sqrt ((variance A / (A.length : ℚ) + variance B / (B.length : ℚ) : ℚ) : ℝ) ∧
    (welch_t_test D A B α c).ci_upper =
      ((mean A - mean B : ℚ) : ℝ) +
        D.tppf ((1 - (1 - c) / 2 : ℚ) : ℝ) ((welchDF A B : ℚ) : ℝ) *
          Real.sqrt ((variance A / (A.length : ℚ) + variance B / (B.length : ℚ) : ℚ) : ℝ) :=
  ⟨rfl, rfl, rfl, rfl, rfl⟩

/-- C2 witness: two concrete continuous groups of size 2. -/
theorem C2_welch_t_test_formulas_witness :
    2 ≤ ([1, 2] : List ℚ).length ∧ 2 ≤ ([4, 6] : List ℚ).length ∧
    (welch_t_test D0 [1, 2] [4, 6] (1/20) (19/20)).test_statistic =
      ((mean [1, 2] - mean [4, 6] : ℚ) : ℝ) /
        Real.sqrt ((variance [1, 2] / (([1, 2] : List ℚ).length : ℚ) +
          variance [4, 6] / (([4, 6] : List ℚ).length : ℚ) : ℚ) : ℝ) :=
  ⟨by decide, by decide,
    (C2_welch_t_test_formulas D0 [1, 2] [4, 6] (1/20) (19/20) (by decide) (by decide)).1⟩

/-- C9: swapping the two groups negates the Welch t statistic, preserves its
magnitude, preserves the Welch-Satterthwaite degrees of freedom, and yields
an identical p-value. -/
theorem C9_welch_swap_symmetry (D : DistFuns) (A B : List ℚ) (α c : ℚ)
    (hA : 2 ≤ A.length) (hB : 2 ≤ B.length) (hse : welchSE A B ≠ 0) :
    (welch_t_test D B A α c).test_statistic = - (welch_t_test D A B α c).test_statistic ∧
    |(welch_t_test D B A α c).test_statistic| = |(welch_t_test D A B α c).test_statistic| ∧
    welchDF B A = welchDF A B ∧
    (welch_t_test D B A α c).p_value = (welch_t_test D A B α c).p_value := by
  have hsesq : welchSESq B A = welchSESq A B := add_comm _ _
  have hdf : welchDF B A = welchDF A B := by
    unfold welchDF
    rw [hsesq, add_comm ((variance B / (B.length : ℚ)) ^ 2 / ((B.length : ℚ) - 1))]
  have hse' : welchSE B A = welchSE A B := by unfold welchSE; rw [hsesq]
  have ht : (welch_t_test D B A α c).test_statistic
      = - (welch_t_test D A B α c).test_statistic := by
    show ((mean B - mean A : ℚ) : ℝ) / welchSE B A
      = -(((mean A - mean B : ℚ) : ℝ) / welchSE A B)
    rw [hse', ← neg_div]
    congr 1
    push_cast
    ring
  have habs : |(welch_t_test D B A α c).test_statistic|
      = |(welch_t_test D A B α c).test_statistic| := by rw [ht, abs_neg]
  refine ⟨ht, habs, hdf, ?_⟩
  show 2 * (1 - D.tcdf |(welch_t_test D B A α c).test_statistic| ((welchDF B A : ℚ) : ℝ))
    = 2 * (1 - D.tcdf |(welch_t_test D A B α c).test_statistic| ((welchDF A B : ℚ) : ℝ))
  rw [habs, hdf]

/-- C9 witness: concrete groups with a nonzero Welch standard error. -/
theorem C9_welch_swap_symmetry_witness :
    2 ≤ ([1, 2] : List ℚ).length ∧ 2 ≤ ([4, 6] : List ℚ).length ∧
    welchSE [1, 2] [4, 6] ≠ 0 ∧
    (welch_t_test D0 [4, 6] [1, 2] (1/20) (19/20)).p_value
      = (welch_t_test D0 [1, 2] [4, 6] (1/20) (19/20)).p_value := by
  have hq : welchSESq [1, 2] [4, 6] = 5/4 := by
    norm_num [welchSESq, variance, mean]
  have hse : welchSE [1, 2] [4, 6] ≠ 0 := by
    rw [welchSE, hq]
    rw [Real.sqrt_ne_zero']
    norm_num
  exact ⟨by decide, by decide, hse,
    (C9_welch_swap_symmetry D0 [1, 2] [4, 6] (1/20) (19/20) (by decide) (by decide) hse).2.2.2⟩

/-- C4: the two-proportion z-test computes its statistic with the pooled
proportion standard error, a two-tailed standard-normal p-value, a
confidence interval with the unpooled standard error, and effect size equal
to the raw difference of proportions. -/
theorem C4_z_test_formulas (D : DistFuns) (A B : List ℚ) (α c : ℚ)
    (hA : A ≠ []) (hB : B ≠ [])
    (hbinA : ∀ v ∈ A, v = 0 ∨ v = 1) (hbinB : ∀ v ∈ B, v = 0 ∨ v = 1) :
    ∃ r, two_proportion_z_test D A B α c = some r ∧
      r.test_statistic =
        ((A.sum / (A.length : ℚ) - B.sum / (B.length : ℚ) : ℚ) : ℝ) /
          Real.sqrt ((((A.sum + B.sum) / ((A.length : ℚ) + (B.length : ℚ))) *
            (1 - (A.sum + B.sum) / ((A.length : ℚ) + (B.length : ℚ))) *
            (1 / (A.length : ℚ) + 1 / (B.length : ℚ)) : ℚ)) ∧
      r.p_value = 2 * (1 - D.normcdf |r.test_statistic|) ∧
      r.ci_lower = ((A.sum / (A.length : ℚ) - B.sum / (B.length : ℚ) : ℚ) : ℝ) -
        D.normppf ((1 - (1 - c) / 2 : ℚ) : ℝ) *
          Real.sqrt (((A.sum / (A.length : ℚ)) * (1 - A.sum / (A.length : ℚ)) / (A.length : ℚ) +
            (B.sum / (B.length : ℚ)) * (1 - B.sum / (B.length : ℚ)) / (B.length : ℚ) : ℚ)) ∧
      r.ci_upper = ((A.sum / (A.length : ℚ) - B.sum / (B.length : ℚ) : ℚ) : ℝ) +
        D.normppf ((1 - (1 - c) / 2 : ℚ) : ℝ) *
          Real.sqrt (((A.sum / (A.length : ℚ)) * (1 - A.sum / (A.length : ℚ)) / (A.length : ℚ) +
            (B.sum / (B.length : ℚ)) * (1 - B.sum / (B.length : ℚ)) / (B.length : ℚ) : ℚ)) ∧
      r.effect_size = ((A.sum / (A.length : ℚ) - B.sum / (B.length : ℚ) : ℚ) : ℝ) := by
  have hg : ¬ (A.length = 0 ∨ B.length = 0) := by
    simp [List.length_eq_zero, hA, hB]
  rw [two_proportion_z_test, if_neg hg]
  exact ⟨_, rfl, rfl, rfl, rfl, rfl, rfl⟩

/-- C4 witness: two concrete 0/1 groups. -/
theorem C4_z_test_formulas_witness :
    ([0, 1] : List ℚ) ≠ [] ∧ ([1, 1, 0] : List ℚ) ≠ [] ∧
    (∀ v ∈ ([0, 1] : List ℚ), v = 0 ∨ v = 1) ∧
    (∀ v ∈ ([1, 1, 0] : List ℚ), v = 0 ∨ v = 1) ∧
    (∃ r, two_proportion_z_test D0 [0, 1] [1, 1, 0] (1/20) (19/20) = some r ∧
      r.effect_size =
        ((([0, 1] : List ℚ).sum / (([0, 1] : List ℚ).length : ℚ) -
          ([1, 1, 0] : List ℚ).sum / (([1, 1, 0] : List ℚ).length : ℚ) : ℚ) : ℝ)) := by
  refine ⟨by simp, by simp, by norm_num, by norm_num, ?_⟩
  obtain ⟨r, hr, -, -, -, -, heff⟩ :=
    C4_z_test_formulas D0 [0, 1] [1, 1, 0] (1/20) (19/20) (by simp) (by simp)
      (by norm_num) (by norm_num)
  exact ⟨r, hr, heff⟩

/-- Case analysis of chi2_contingency by the number of rows: one row gives
(0, 1); two rows (dof 1) trigger the default Yates continuity correction;
three or more rows give the uncorrected Pearson statistic. -/
theorem chi2_contingency_cases (D : DistFuns) (T : List (ℕ × ℕ)) :
    (T.length = 1 → chi2_contingency D T = (0, 1)) ∧
    (T.length = 2 → chi2_contingency D T =
      (yatesChi2OfTable T, D.chi2sf ((yatesChi2OfTable T : ℚ) : ℝ) 1)) ∧
    (3 ≤ T.length → chi2_contingency D T =
      (pearsonChi2OfTable T,
        D.chi2sf ((pearsonChi2OfTable T : ℚ) : ℝ) ((T.length - 1 : ℕ) : ℝ))) := by
  refine ⟨fun h => ?_, fun h => ?_, fun h => ?_⟩
  · simp [chi2_contingency, h]
  · simp [chi2_contingency, h]
  · have h0 : T.length - 1 ≠ 0 := by omega
    have h1 : T.length - 1 ≠ 1 := by omega
    simp [chi2_contingency, h0, h1]

/-- The sorted union of distinct values is sorted, duplicate-free, and
carries exactly the values occurring in either group. -/
theorem contingencyValues_spec (A B : List ℚ) :
    (∀ v : ℚ, v ∈ contingencyValues A B ↔ (v ∈ A ∨ v ∈ B)) ∧
    (contingencyValues A B).Pairwise (· ≤ ·) ∧
    (contingencyValues A B).Nodup := by
  refine ⟨fun v => ?_, ?_, ?_⟩
  · simp [contingencyValues, List.mem_dedup]
  · have hs : ((A ++ B).dedup.mergeSort (fun a b => a ≤ b)).Pairwise
        (fun a b : ℚ => (decide (a ≤ b)) = true) := by
      apply List.sorted_mergeSort
      · intro a b c hab hbc
        exact decide_eq_true (le_trans (of_decide_eq_true hab) (of_decide_eq_true hbc))
      · intro a b
        simpa [Bool.or_eq_true, decide_eq_true_eq] using le_total a b
    exact hs.imp (fun h => of_decide_eq_true h)
  · rw [contingencyValues, (List.mergeSort_perm _ _).nodup_iff]
    exact (A ++ B).nodup_dedup

/-- C3 counterexample: on group_a = [1,1,2], group_b = [1,2,2] the table has
two rows, the code applies the default Yates continuity correction of
stats.chi2_contingency and reports statistic 0, while the uncorrected
Pearson statistic of that table is 2/3 — the claim that the statistic is
uncorrected for every table shape including 2 distinct values is false. -/
theorem C3_counterexample_yates_2x2 :
    (chi_squared_test D0 [1, 1, 2] [1, 2, 2] (1/20) (19/20)).map
        StatisticalResult.test_statistic = some (0 : ℝ) ∧
    pearsonChi2OfTable (contingencyTable [1, 1, 2] [1, 2, 2]) = 2/3 ∧
    (0 : ℝ) ≠ ((pearsonChi2OfTable (contingencyTable [1, 1, 2] [1, 2, 2]) : ℚ) : ℝ) := by
  have hT : contingencyTable [1, 1, 2] [1, 2, 2] = [(2, 1), (1, 2)] := by
    norm_num [contingencyTable, contingencyValues, List.dedup, List.mergeSort,
      List.count_cons, List.count_nil]
  have hyates : yatesChi2OfTable [(2, 1), (1, 2)] = 0 := by
    norm_num [yatesChi2OfTable, abs_of_nonneg]
  have hpearson : pearsonChi2OfTable [(2, 1), (1, 2)] = 2/3 := by
    norm_num [pearsonChi2OfTable]
  have hstat : (chi2_contingency D0 (contingencyTable [1, 1, 2] [1, 2, 2])).1 = 0 := by
    rw [hT, (chi2_contingency_cases D0 [(2, 1), (1, 2)]).2.1 (by norm_num), hyates]
  refine ⟨?_, by rw [hT]; exact hpearson, ?_⟩
  · rw [chi_squared_test, if_neg (by simp)]
    simp only [Option.map_some']
    congr 1
    show (((chi2_contingency D0 (contingencyTable [1, 1, 2] [1, 2, 2])).1 : ℚ) : ℝ) = 0
    rw [hstat]
    norm_num
  · rw [hT, hpearson]
    norm_num

/-- C3 amended: the contingency table has one row per distinct value of the
sorted union and one column per group with observed counts, and the p-value
uses dof = rows - 1; the test_statistic is the uncorrected Pearson statistic
whenever the table has at least 3 rows, but with exactly 2 rows the default
Yates continuity correction of stats.chi2_contingency is applied, and with a
single row the statistic is 0 with p-value 1. -/
theorem C3_amended_chi_squared_table_and_statistic (D : DistFuns) (A B : List ℚ)
    (α c : ℚ) (hA : A ≠ []) (hB : B ≠ []) :
    ∃ r, chi_squared_test D A B α c = some r ∧
      (∀ v : ℚ, v ∈ contingencyValues A B ↔ (v ∈ A ∨ v ∈ B)) ∧
      (contingencyValues A B).Pairwise (· ≤ ·) ∧
      (contingencyValues A B).Nodup ∧
      contingencyTable A B = (contingencyValues A B).map (fun v => (A.count v, B.count v)) ∧
      (3 ≤ (contingencyValues A B).length →
        r.test_statistic = ((pearsonChi2OfTable (contingencyTable A B) : ℚ) : ℝ) ∧
        r.p_value = D.chi2sf r.test_statistic
          (((contingencyValues A B).length - 1 : ℕ) : ℝ)) ∧
      ((contingencyValues A B).length = 2 →
        r.test_statistic = ((yatesChi2OfTable (contingencyTable A B) : ℚ) : ℝ) ∧
        r.p_value = D.chi2sf r.test_statistic 1) ∧
      ((contingencyValues A B).length = 1 →
        r.test_statistic = 0 ∧ r.p_value = 1) := by
  obtain ⟨hmem, hsorted, hnodup⟩ := contingencyValues_spec A B
  obtain ⟨hc1, hc2, hc3⟩ := chi2_contingency_cases D (contingencyTable A B)
  have hTlen : (contingencyTable A B).length = (contingencyValues A B).length :=
    List.length_map _ _
  rw [chi_squared_test, if_neg (by simp [hA, hB])]
  refine ⟨_, rfl, hmem, hsorted, hnodup, rfl, fun h => ?_, fun h => ?_, fun h => ?_⟩
  · have hc := hc3 (by omega)
    constructor
    · show ((chi2_contingency D (contingencyTable A B)).1 : ℝ) = _
      rw [hc]
    · show (chi2_contingency D (contingencyTable A B)).2 = D.chi2sf
        ((chi2_contingency D (contingencyTable A B)).1 : ℝ) _
      rw [hc, hTlen]
  · have hc := hc2 (by omega)
    constructor
    · show ((chi2_contingency D (contingencyTable A B)).1 : ℝ) = _
      rw [hc]
    · show (chi2_contingency D (contingencyTable A B)).2 = D.chi2sf
        ((chi2_contingency D (contingencyTable A B)).1 : ℝ) 1
      rw [hc]
  · have hc := hc1 (by omega)
    constructor
    · show ((chi2_contingency D (contingencyTable A B)).1 : ℝ) = 0
      rw [hc]
      norm_num
    · show (chi2_contingency D (contingencyTable A B)).2 = 1
      rw [hc]

/-- C3 amended witness: the spec scenario with three distinct values. -/
theorem C3_amended_chi_squared_witness :
    ([1, 2, 3, 1, 2] : List ℚ) ≠ [] ∧ ([3, 3, 3, 1, 1] : List ℚ) ≠ [] ∧
    (∃ r, chi_squared_test D0 [1, 2, 3, 1, 2] [3, 3, 3, 1, 1] (1/20) (19/20) = some r ∧
      (∀ v : ℚ, v ∈ contingencyValues [1, 2, 3, 1, 2] [3, 3, 3, 1, 1] ↔
        (v ∈ ([1, 2, 3, 1, 2] : List ℚ) ∨ v ∈ ([3, 3, 3, 1, 1] : List ℚ)))) := by
  obtain ⟨r, hr, hmem, -, -, -, -, -, -⟩ :=
    C3_amended_chi_squared_table_and_statistic D0 [1, 2, 3, 1, 2] [3, 3, 3, 1, 1]
      (1/20) (19/20) (by simp) (by simp)
  exact ⟨by simp, by simp, r, hr, hmem⟩

/-- C8: the chi-squared test reports effect size sqrt(chi2 / totalN) with
totalN = nA + nB and the heuristic confidence band [0, 2 * effect_size], so
its lower bound never exceeds its upper bound. -/
theorem C8_chi_effect_size_and_band (D : DistFuns) (A B : List ℚ) (α c : ℚ)
    (hA : A ≠ []) (hB : B ≠ [])
    (hcatA : detect_data_type A = .categorical) (hcatB : detect_data_type B = .categorical) :
    ∃ r, chi_squared_test D A B α c = some r ∧
      r.effect_size = Real.sqrt (r.test_statistic /
        (((A.length : ℚ) + (B.length : ℚ) : ℚ) : ℝ)) ∧
      r.ci_lower = 0 ∧
      r.ci_upper = 2 * r.effect_size ∧
      r.ci_lower ≤ r.ci_upper := by
  rw [chi_squared_test, if_neg (by simp [hA, hB])]
  refine ⟨_, rfl, ?_, rfl, mul_comm _ 2, ?_⟩
  · show Real.sqrt (((chi2_contingency D (contingencyTable A B)).1 /
        ((A.length : ℚ) + (B.length : ℚ)) : ℚ) : ℝ) = _
    rw [Rat.cast_div]
  · show (0 : ℝ) ≤ Real.sqrt _ * 2
    have := Real.sqrt_nonneg (((chi2_contingency D (contingencyTable A B)).1 /
      ((A.length : ℚ) + (B.length : ℚ)) : ℚ) : ℝ)
    linarith

/-- C8 witness: two concrete categorical groups. -/
theorem C8_chi_effect_size_and_band_witness :
    ([5, 5] : List ℚ) ≠ [] ∧ ([5, 6] : List ℚ) ≠ [] ∧
    detect_data_type [5, 5] = .categorical ∧ detect_data_type [5, 6] = .categorical ∧
    (∃ r, chi_squared_test D0 [5, 5] [5, 6] (1/20) (19/20) = some r ∧
      r.ci_lower = 0 ∧ r.ci_lower ≤ r.ci_upper) := by
  have hcat1 : detect_data_type [5, 5] = .categorical := by
    norm_num [detect_data_type, List.dedup]
  have hcat2 : detect_data_type [5, 6] = .categorical := by
    norm_num [detect_data_type, List.dedup]
  obtain ⟨r, hr, -, hlow, -, hband⟩ :=
    C8_chi_effect_size_and_band D0 [5, 5] [5, 6] (1/20) (19/20)
      (by simp) (by simp) hcat1 hcat2
  exact ⟨by simp, by simp, hcat1, hcat2, r, hr, hlow, hband⟩

/-- C5 counterexample: a continuous group of size 1 resolves to the t-test,
and analyze_data returns a normal result for it instead of failing — the
computation silently produces undefined (NaN-valued in numpy) statistics,
contradicting the claim that an n = 1 group with the t-test resolved is
reported as an error. -/
theorem C5_counterexample_n1_t_test_returns_result :
    detect_data_type [(3 : ℚ)/2] = .continuous ∧
    detect_data_type [(5 : ℚ)/2, 7/2] = .continuous ∧
    ([(3 : ℚ)/2] : List ℚ).length = 1 ∧
    analyze_data D0 ⟨[(3 : ℚ)/2], [(5 : ℚ)/2, 7/2], 1/20, 4/5, 19/20⟩ =
      some (welch_t_test D0 [(3 : ℚ)/2] [(5 : ℚ)/2, 7/2] (1/20) (19/20)) := by
  have h1 : detect_data_type [(3 : ℚ)/2] = .continuous := by
    norm_num [detect_data_type, List.dedup]
  have h2 : detect_data_type [(5 : ℚ)/2, 7/2] = .continuous := by
    norm_num [detect_data_type, List.dedup]
  have hres : resolved_data_type [(3 : ℚ)/2] [(5 : ℚ)/2, 7/2] = .continuous := by
    simp [resolved_data_type, h1, h2]
  exact ⟨h1, h2, rfl, by simp [analyze_data, hres]⟩

/-- C5 amended: a call with an empty group does fail — the empty group
classifies as binary, the call dispatches to the two-proportion z-test, and
the division by the zero group size raises (no result is returned); but a
size-1 group resolving to the t-test does not fail and yields a normal
result with undefined statistics (see the counterexample). -/
theorem C5_amended_empty_group_fails (D : DistFuns) (A B : List ℚ) (α pw c : ℚ)
    (h : A = [] ∨ B = []) :
    analyze_data D ⟨A, B, α, pw, c⟩ = none := by
  have h0 : detect_data_type ([] : List ℚ) = .binary := rfl
  rcases h with h | h <;> subst h
  · have hres : resolved_data_type [] B = .binary := by simp [resolved_data_type, h0]
    simp [analyze_data, hres, two_proportion_z_test]
  · have hres : resolved_data_type A [] = .binary := by simp [resolved_data_type, h0]
    simp [analyze_data, hres, two_proportion_z_test]

/-- C5 amended witness: the empty first group. -/
theorem C5_amended_empty_group_fails_witness :
    (([] : List ℚ) = [] ∨ ([1] : List ℚ) = []) ∧
    analyze_data D0 ⟨[], [1], 1/20, 4/5, 19/20⟩ = none :=
  ⟨Or.inl rfl, C5_amended_empty_group_fails D0 [] [1] (1/20) (4/5) (19/20) (Or.inl rfl)⟩

/-- C6 counterexample: with significance level 3/2 and confidence level 5/2,
both outside (0, 1), analyze_data still runs the z-test and produces a
result — no InvalidParameters rejection happens before the test runs. -/
theorem C6_counterexample_out_of_range_params_accepted :
    ¬ (0 < (3 : ℚ)/2 ∧ (3 : ℚ)/2 < 1) ∧
    ¬ (0 < (5 : ℚ)/2 ∧ (5 : ℚ)/2 < 1) ∧
    (analyze_data D0 ⟨[0, 1, 1], [1, 0], 3/2, 4/5, 5/2⟩).isSome = true := by
  have hbin : detect_data_type [0, 1, 1] = .binary := by
    norm_num [detect_data_type, List.dedup]
  have hres : resolved_data_type [0, 1, 1] [1, 0] = .binary := by
    simp [resolved_data_type, hbin]
  refine ⟨by norm_num, by norm_num, ?_⟩
  rw [show analyze_data D0 ⟨[0, 1, 1], [1, 0], 3/2, 4/5, 5/2⟩
      = two_proportion_z_test D0 [0, 1, 1] [1, 0] (3/2) (5/2) by simp [analyze_data, hres]]
  rw [two_proportion_z_test, if_neg (by simp)]
  rfl

/-- C6 amended: analyze_data performs no validation of the significance or
confidence level — for every value of these parameters, inside or outside
(0, 1), it dispatches identically and, for non-empty groups, produces a
result; the selected test does not depend on the parameters. -/
theorem C6_amended_no_parameter_validation (D : DistFuns) (A B : List ℚ)
    (α pw c α' pw' c' : ℚ) (hA : A ≠ []) (hB : B ≠ []) :
    (analyze_data D ⟨A, B, α, pw, c⟩).isSome = true ∧
    (analyze_data D ⟨A, B, α, pw, c⟩).map StatisticalResult.test_type
      = (analyze_data D ⟨A, B, α', pw', c'⟩).map StatisticalResult.test_type := by
  have hA' : A.length ≠ 0 := fun hl => hA (List.length_eq_zero.mp hl)
  have hB' : B.length ≠ 0 := fun hl => hB (List.length_eq_zero.mp hl)
  rcases hr : resolved_data_type A B with _ | _ | _
  · constructor
    · simp [analyze_data, hr]
    · simp only [analyze_data, hr, Option.map_some']
      rfl
  · constructor
    · simp [analyze_data, hr, two_proportion_z_test, hA', hB']
    · have h1 : analyze_data D ⟨A, B, α, pw, c⟩ = two_proportion_z_test D A B α c := by
        simp [analyze_data, hr]
      have h2 : analyze_data D ⟨A, B, α', pw', c'⟩ = two_proportion_z_test D A B α' c' := by
        simp [analyze_data, hr]
      rw [h1, h2, two_proportion_z_test, two_proportion_z_test,
        if_neg (by simp [hA', hB']), if_neg (by simp [hA', hB'])]
      rfl
  · constructor
    · simp [analyze_data, hr, chi_squared_test, hA, hB]
    · have h1 : analyze_data D ⟨A, B, α, pw, c⟩ = chi_squared_test D A B α c := by
        simp [analyze_data, hr]
      have h2 : analyze_data D ⟨A, B, α', pw', c'⟩ = chi_squared_test D A B α' c' := by
        simp [analyze_data, hr]
      rw [h1, h2, chi_squared_test, chi_squared_test,
        if_neg (by simp [hA, hB]), if_neg (by simp [hA, hB])]
      rfl

/-- C6 amended witness: out-of-range parameters on concrete groups. -/
theorem C6_amended_no_parameter_validation_witness :
    ([0, 1] : List ℚ) ≠ [] ∧ ([1] : List ℚ) ≠ [] ∧
    (analyze_data D0 ⟨[0, 1], [1], 3/2, 4/5, 5/2⟩).isSome = true :=
  ⟨by simp, by simp,
    (C6_amended_no_parameter_validation D0 [0, 1] [1] (3/2) (4/5) (5/2) (1/20) (4/5) (19/20)
      (by simp) (by simp)).1⟩
